import Mathlib

/-!
# QOpenGLWidgetBackground: rotation state, input handling and mesh import

A shallow embedding of `src/glwidget.cpp` (angle normalisation, the rotation
setters, `rotateBy`, the three mouse handlers) and of
`src/objectmodelrenderable.cpp` (the constructor and `processMesh`).

The C++ type `int` is 32 bits wide.  Its values are embedded in `Int`, and every
addition, subtraction and multiplication the program performs on `int` is followed
by `wrapInt32`, the reduction modulo `2 ^ 32` into `[-2 ^ 31, 2 ^ 31)` that the
compiled program performs.  `qNormalizeAngle` needs no reduction: on a 32-bit
input it adds `5760` only to negative values and subtracts `5760` only from values
above `5760`, so it never leaves the range.
-/

namespace QOpenGLWidgetBackground

/-! ## The type `int` -/

/-- The result of a 32-bit `int` operation whose exact value is `x`: the representative of
`x` modulo `2 ^ 32` in `[-2 ^ 31, 2 ^ 31)`. -/
def wrapInt32 (x : Int) : Int :=
  (x + 2147483648) % 4294967296 - 2147483648

/-- The integer `x` is a value of the 32-bit type `int`. -/
def IsInt32 (x : Int) : Prop :=
  -2147483648 ≤ x ∧ x < 2147483648

instance (x : Int) : Decidable (IsInt32 x) := by
  unfold IsInt32; infer_instance

/-! ## Angle normalisation (`glwidget.cpp`, lines 78-84) -/

/-- First loop of `qNormalizeAngle`: `while (angle < 0) angle += 360 * 16;`. -/
def normalizeNegLoop (angle : Int) : Int :=
  if angle < 0 then normalizeNegLoop (angle + 360 * 16) else angle
termination_by (-angle).toNat
decreasing_by omega

/-- Second loop of `qNormalizeAngle`: `while (angle > 360 * 16) angle -= 360 * 16;`. -/
def normalizePosLoop (angle : Int) : Int :=
  if angle > 360 * 16 then normalizePosLoop (angle - 360 * 16) else angle
termination_by angle.toNat
decreasing_by omega

/-- The function `qNormalizeAngle(int &angle)`: the value left in `angle` when it returns. -/
def qNormalizeAngle (angle : Int) : Int :=
  normalizePosLoop (normalizeNegLoop angle)

/-! ## Widget state (`glwidget.cpp`) -/

/-- A `QPoint`: integer screen coordinates. -/
structure QPoint where
  x : Int
  y : Int
  deriving DecidableEq, Repr

/-- The flag `Qt::LeftButton` (value `0x00000001` in Qt). -/
def LeftButton : Nat := 1

/-- The flag `Qt::RightButton` (value `0x00000002` in Qt). -/
def RightButton : Nat := 2

/-- The part of a `QMouseEvent` the handlers read: `pos()` (with `x()`, `y()` its
coordinates) and the bit set `buttons()`. -/
structure QMouseEvent where
  pos : QPoint
  buttons : Nat
  deriving DecidableEq, Repr

/-- The members of `GLWidget` that the rotation and mouse code reads or writes, with two
counters that record its outward effects: the number of `update()` calls (redraw requests)
and the number of `clicked()` signals emitted. -/
structure GLWidget where
  xRot : Int
  yRot : Int
  zRot : Int
  lastPos : QPoint
  updateCalls : Nat
  clickedEmitted : Nat
  deriving DecidableEq, Repr

namespace GLWidget

/-- The constructor `GLWidget::GLWidget`: `xRot(0), yRot(0), zRot(0)`; `lastPos` is a
default-constructed `QPoint`, the origin; nothing has been requested or emitted yet. -/
def new : GLWidget :=
  { xRot := 0, yRot := 0, zRot := 0, lastPos := ⟨0, 0⟩, updateCalls := 0, clickedEmitted := 0 }

/-- A call of `update()`: one more redraw request. -/
def update (w : GLWidget) : GLWidget :=
  { w with updateCalls := w.updateCalls + 1 }

/-- The statement `emit clicked();`. -/
def emitClicked (w : GLWidget) : GLWidget :=
  { w with clickedEmitted := w.clickedEmitted + 1 }

/-- The method `GLWidget::setXRotation(int angle)`. -/
def setXRotation (angle : Int) (w : GLWidget) : GLWidget :=
  let angle := qNormalizeAngle angle
  if angle ≠ w.xRot then update { w with xRot := angle } else w

/-- The method `GLWidget::setYRotation(int angle)`. -/
def setYRotation (angle : Int) (w : GLWidget) : GLWidget :=
  let angle := qNormalizeAngle angle
  if angle ≠ w.yRot then update { w with yRot := angle } else w

/-- The method `GLWidget::setZRotation(int angle)`. -/
def setZRotation (angle : Int) (w : GLWidget) : GLWidget :=
  let angle := qNormalizeAngle angle
  if angle ≠ w.zRot then update { w with zRot := angle } else w

/-- The method `GLWidget::rotateBy(int xAngle, int yAngle, int zAngle)`: three `+=` on
`int` members. -/
def rotateBy (xAngle yAngle zAngle : Int) (w : GLWidget) : GLWidget :=
  update { w with
    xRot := wrapInt32 (w.xRot + xAngle)
    yRot := wrapInt32 (w.yRot + yAngle)
    zRot := wrapInt32 (w.zRot + zAngle) }

/-- The handler `GLWidget::mousePressEvent`. -/
def mousePressEvent (event : QMouseEvent) (w : GLWidget) : GLWidget :=
  { w with lastPos := event.pos }

/-- The handler `GLWidget::mouseMoveEvent`; the differences, the products `8 * dy`,
`8 * dx` and the sums are `int` operations. -/
def mouseMoveEvent (event : QMouseEvent) (w : GLWidget) : GLWidget :=
  let dx := wrapInt32 (event.pos.x - w.lastPos.x)
  let dy := wrapInt32 (event.pos.y - w.lastPos.y)
  let w1 :=
    if event.buttons &&& LeftButton ≠ 0 then
      let wx := setXRotation (wrapInt32 (w.xRot + wrapInt32 (8 * dy))) w
      setYRotation (wrapInt32 (wx.yRot + wrapInt32 (8 * dx))) wx
    else if event.buttons &&& RightButton ≠ 0 then
      let wx := setXRotation (wrapInt32 (w.xRot + wrapInt32 (8 * dy))) w
      setZRotation (wrapInt32 (wx.zRot + wrapInt32 (8 * dx))) wx
    else w
  { w1 with lastPos := event.pos }

/-- The handler `GLWidget::mouseReleaseEvent`; it ignores its event. -/
def mouseReleaseEvent (_event : QMouseEvent) (w : GLWidget) : GLWidget :=
  emitClicked w

end GLWidget

/-- The operations that write the rotation state or the pointer state of a widget. -/
inductive Op where
  | setXRotation (angle : Int)
  | setYRotation (angle : Int)
  | setZRotation (angle : Int)
  | rotateBy (xAngle yAngle zAngle : Int)
  | mousePressEvent (event : QMouseEvent)
  | mouseMoveEvent (event : QMouseEvent)
  | mouseReleaseEvent (event : QMouseEvent)
  deriving DecidableEq, Repr

/-- Whether an operation is a call of `rotateBy`. -/
def Op.isRotateBy : Op → Bool
  | .rotateBy _ _ _ => true
  | _ => false

/-- One operation applied to a widget. -/
def Op.apply : Op → GLWidget → GLWidget
  | .setXRotation a, w => w.setXRotation a
  | .setYRotation a, w => w.setYRotation a
  | .setZRotation a, w => w.setZRotation a
  | .rotateBy dx dy dz, w => w.rotateBy dx dy dz
  | .mousePressEvent e, w => w.mousePressEvent e
  | .mouseMoveEvent e, w => w.mouseMoveEvent e
  | .mouseReleaseEvent e, w => w.mouseReleaseEvent e

/-- A sequence of operations applied in order, first to last. -/
def run (ops : List Op) (w : GLWidget) : GLWidget :=
  ops.foldl (fun s op => op.apply s) w

/-- The three accumulators all lie in the half-open range `[0, 5760)`. -/
def InHalfOpenRange (w : GLWidget) : Prop :=
  (0 ≤ w.xRot ∧ w.xRot < 5760) ∧ (0 ≤ w.yRot ∧ w.yRot < 5760) ∧ (0 ≤ w.zRot ∧ w.zRot < 5760)

instance (w : GLWidget) : Decidable (InHalfOpenRange w) := by
  unfold InHalfOpenRange; infer_instance

/-- The three accumulators all lie in the closed range `[0, 5760]`. -/
def InClosedRange (w : GLWidget) : Prop :=
  (0 ≤ w.xRot ∧ w.xRot ≤ 5760) ∧ (0 ≤ w.yRot ∧ w.yRot ≤ 5760) ∧ (0 ≤ w.zRot ∧ w.zRot ≤ 5760)

instance (w : GLWidget) : Decidable (InClosedRange w) := by
  unfold InClosedRange; infer_instance

/-! ## Mesh import (`objectmodelrenderable.cpp`, `objectmodelrenderable.h`)

The Assimp records are embedded with the fields the code reads.  A C array is a list: the
element at position `i` is `xs[i]?`, and a read past the end of the array (undefined
behaviour in C++) is `none`.  The scalar type `R` stands for `float`; coordinates are only
copied, never computed with.  `unsigned int` indices are natural numbers. -/

/-- Assimp's `aiVector3D`. -/
structure aiVector3D (R : Type) where
  x : R
  y : R
  z : R
  deriving DecidableEq, Repr

/-- Assimp's `aiFace`: the count `mNumIndices` and the array `mIndices`. -/
structure aiFace where
  mNumIndices : Nat
  mIndices : List Nat
  deriving DecidableEq, Repr

/-- Assimp's `aiMesh`: `mNormals` is `none` for a null pointer. -/
structure aiMesh (R : Type) where
  mNumVertices : Nat
  mVertices : List (aiVector3D R)
  mNormals : Option (List (aiVector3D R))
  mNumFaces : Nat
  mFaces : List aiFace
  deriving DecidableEq, Repr

/-- Assimp's `aiMesh::HasNormals()`: `mNormals != nullptr && mNumVertices > 0`. -/
def aiMesh.HasNormals {R : Type} (mesh : aiMesh R) : Bool :=
  mesh.mNormals.isSome && decide (mesh.mNumVertices > 0)

/-- Assimp's `aiScene`: the array `mMeshes`. -/
structure aiScene (R : Type) where
  mNumMeshes : Nat
  mMeshes : List (aiMesh R)
  deriving DecidableEq, Repr

/-- The class `ObjectModelRenerable`: its three `QVector` members. -/
structure ObjectModelRenerable (R : Type) where
  m_vertices : List R
  m_normals : List R
  m_indices : List Nat
  deriving DecidableEq, Repr

/-- The loop `for (uint i = start; i < start + count; ++i) body`, where the body may hit
undefined behaviour (`none`). -/
def forLoopFrom {σ : Type} (body : Nat → σ → Option σ) : Nat → Nat → σ → Option σ
  | 0, _, s => some s
  | count + 1, i, s => (body i s).bind (forLoopFrom body count (i + 1))

/-- The loop `for (uint i = 0; i < n; ++i) body`. -/
def forLoop {σ : Type} (n : Nat) (body : Nat → σ → Option σ) (s : σ) : Option σ :=
  forLoopFrom body n 0 s

namespace ObjectModelRenerable

/-- An object whose three vectors are empty, as they are when the constructor body starts. -/
def empty {R : Type} : ObjectModelRenerable R :=
  { m_vertices := [], m_normals := [], m_indices := [] }

/-- Body of the vertex loop of `processMesh` (lines 76-80). -/
def vertexBody {R : Type} (mesh : aiMesh R) (ii : Nat) (self : ObjectModelRenerable R) :
    Option (ObjectModelRenerable R) :=
  (mesh.mVertices[ii]?).map fun vec =>
    { self with m_vertices := ((self.m_vertices ++ [vec.x]) ++ [vec.y]) ++ [vec.z] }

/-- Body of the normal loop of `processMesh` (lines 89-92). -/
def normalBody {R : Type} (mesh : aiMesh R) (ii : Nat) (self : ObjectModelRenerable R) :
    Option (ObjectModelRenerable R) :=
  (mesh.mNormals.bind fun ns => ns[ii]?).map fun vec =>
    { self with m_normals := ((self.m_normals ++ [vec.x]) ++ [vec.y]) ++ [vec.z] }

/-- Body of the face loop of `processMesh` (lines 99-107). -/
def faceBody {R : Type} (mesh : aiMesh R) (t : Nat) (self : ObjectModelRenerable R) :
    Option (ObjectModelRenerable R) :=
  (mesh.mFaces[t]?).bind fun face =>
    if face.mNumIndices ≠ 3 then some self
    else
      (face.mIndices[0]?).bind fun i0 =>
      (face.mIndices[1]?).bind fun i1 =>
      (face.mIndices[2]?).map fun i2 =>
        { self with m_indices := ((self.m_indices ++ [i0]) ++ [i1]) ++ [i2] }

/-- The method `ObjectModelRenerable::processMesh(aiMesh *mesh)`, run on the object `self`;
`none` when it reads past the end of one of the mesh arrays. -/
def processMesh {R : Type} (mesh : aiMesh R) (self : ObjectModelRenerable R) :
    Option (ObjectModelRenerable R) :=
  (if mesh.mNumVertices > 0 then forLoop mesh.mNumVertices (vertexBody mesh) self
    else some self).bind fun s1 =>
  (if mesh.HasNormals then forLoop mesh.mNumVertices (normalBody mesh) s1
    else some s1).bind fun s2 =>
  forLoop mesh.mNumFaces (faceBody mesh) s2

end ObjectModelRenerable

/-- How a constructor call can end.  The source has no `throw` and no error return, so the
embedded constructor never ends in `importError`; that outcome is listed because the
specification names it. -/
inductive Outcome (α : Type) where
  /-- The constructor returned and the object exists. -/
  | constructed (obj : α)
  /-- The constructor reported an import error. -/
  | importError
  /-- The constructor dereferenced a null pointer or read past an array: undefined behaviour. -/
  | undefinedBehaviour
  deriving DecidableEq, Repr

/-- The constructor `ObjectModelRenerable::ObjectModelRenerable(const QString &objectModel)`.
The call `importer.ReadFile` of the Assimp library is the parameter `ReadFile`; it returns
`none` for the null pointer.  The body is `processMesh(scene->mMeshes[0])` with no test on
`scene` or on the number of meshes. -/
def ObjectModelRenerable.construct {R : Type} (ReadFile : String → Option (aiScene R))
    (objectModel : String) : Outcome (ObjectModelRenerable R) :=
  match ReadFile objectModel with
  | none => .undefinedBehaviour
  | some scene =>
    match scene.mMeshes[0]? with
    | none => .undefinedBehaviour
    | some mesh =>
      match ObjectModelRenerable.processMesh mesh ObjectModelRenerable.empty with
      | none => .undefinedBehaviour
      | some obj => .constructed obj

/-- The three coordinates of a vector, in the order they are pushed. -/
def ObjectModelRenerable.coords {R : Type} (vec : aiVector3D R) : List R := [vec.x, vec.y, vec.z]

/-- The indices a face contributes: its three indices when it is a triangle, none otherwise. -/
def ObjectModelRenerable.faceIndices (face : aiFace) : List Nat :=
  if face.mNumIndices ≠ 3 then [] else face.mIndices.take 3

/-- The array `mMeshes` of a scene holds `mNumMeshes` meshes. -/
def aiScene.WellFormed {R : Type} (scene : aiScene R) : Prop :=
  scene.mMeshes.length = scene.mNumMeshes

instance {R : Type} (scene : aiScene R) : Decidable scene.WellFormed := by
  unfold aiScene.WellFormed; infer_instance

/-- The arrays of a face have the length its count field declares. -/
def aiFace.WellFormed (face : aiFace) : Prop :=
  face.mIndices.length = face.mNumIndices

instance (face : aiFace) : Decidable face.WellFormed := by
  unfold aiFace.WellFormed; infer_instance

/-- The arrays of a mesh have the lengths its count fields declare: `mVertices` and, when
present, `mNormals` hold `mNumVertices` entries, `mFaces` holds `mNumFaces` faces, each of
them well formed. -/
def aiMesh.WellFormed {R : Type} (mesh : aiMesh R) : Prop :=
  mesh.mVertices.length = mesh.mNumVertices ∧
  (∀ ns ∈ mesh.mNormals, ns.length = mesh.mNumVertices) ∧
  mesh.mFaces.length = mesh.mNumFaces ∧
  ∀ face ∈ mesh.mFaces, face.WellFormed

instance {R : Type} (mesh : aiMesh R) : Decidable mesh.WellFormed := by
  unfold aiMesh.WellFormed; infer_instance

/-- Every face of the mesh is a triangle whose three indices name vertices of the mesh. -/
def aiMesh.AllTriangles {R : Type} (mesh : aiMesh R) : Prop :=
  ∀ face ∈ mesh.mFaces, face.mNumIndices = 3 ∧ ∀ i ∈ face.mIndices, i < mesh.mNumVertices

instance {R : Type} (mesh : aiMesh R) : Decidable mesh.AllTriangles := by
  unfold aiMesh.AllTriangles; infer_instance

/-- A fixture: one triangle in the plane `z = 0` with integer coordinates, three vertices,
three normals and one face. -/
def triangleMesh : aiMesh Int :=
  { mNumVertices := 3
    mVertices := [⟨0, 0, 0⟩, ⟨1, 0, 0⟩, ⟨0, 1, 0⟩]
    mNormals := some [⟨0, 0, 1⟩, ⟨0, 0, 1⟩, ⟨0, 0, 1⟩]
    mNumFaces := 1
    mFaces := [⟨3, [0, 1, 2]⟩] }

/-- A fixture: four vertices without normals and four faces, of which the first and the last
are triangles, the second is a line (two indices) and the third a quadrilateral. -/
def mixedMesh : aiMesh Int :=
  { mNumVertices := 4
    mVertices := [⟨0, 0, 0⟩, ⟨1, 0, 0⟩, ⟨1, 1, 0⟩, ⟨0, 1, 5⟩]
    mNormals := none
    mNumFaces := 4
    mFaces := [⟨3, [0, 1, 2]⟩, ⟨2, [2, 3]⟩, ⟨4, [0, 1, 2, 3]⟩, ⟨3, [2, 3, 0]⟩] }

/-! ## The type `int`: lemmas -/

/-- An operation whose exact result is an `int` value returns it. -/
theorem wrapInt32_of_isInt32 {x : Int} (h : IsInt32 x) : wrapInt32 x = x := by
  unfold IsInt32 at h; unfold wrapInt32; omega

theorem isInt32_wrapInt32 (x : Int) : IsInt32 (wrapInt32 x) := by
  unfold IsInt32 wrapInt32; omega

theorem wrapInt32_add_wrapInt32 (a b : Int) :
    wrapInt32 (a + wrapInt32 b) = wrapInt32 (a + b) := by
  unfold wrapInt32; omega

theorem wrapInt32_wrapInt32_add (a b : Int) :
    wrapInt32 (wrapInt32 a + b) = wrapInt32 (a + b) := by
  unfold wrapInt32; omega

theorem wrapInt32_eight_mul_wrapInt32 (a : Int) :
    wrapInt32 (8 * wrapInt32 a) = wrapInt32 (8 * a) := by
  unfold wrapInt32; omega

/-- The argument `xRot + 8 * dy` that `mouseMoveEvent` passes to a setter, computed step by
step on `int`, is the reduction of the exact value. -/
theorem wrapInt32_drag (r c l : Int) :
    wrapInt32 (r + wrapInt32 (8 * wrapInt32 (c - l))) = wrapInt32 (r + 8 * (c - l)) := by
  unfold wrapInt32; omega

/-! ## Angle normalisation: lemmas -/

theorem normalizeNegLoop_of_nonneg {a : Int} (h : 0 ≤ a) : normalizeNegLoop a = a := by
  rw [normalizeNegLoop, if_neg (not_lt.mpr h)]

theorem normalizeNegLoop_of_neg {a : Int} (h : a < 0) :
    normalizeNegLoop a = normalizeNegLoop (a + 5760) := by
  rw [normalizeNegLoop, if_pos h]; rfl

theorem normalizePosLoop_of_le {a : Int} (h : a ≤ 5760) : normalizePosLoop a = a := by
  rw [normalizePosLoop, if_neg (by show ¬ a > 360 * 16; omega)]

theorem normalizePosLoop_of_gt {a : Int} (h : 5760 < a) :
    normalizePosLoop a = normalizePosLoop (a - 5760) := by
  rw [normalizePosLoop, if_pos (by show a > 360 * 16; omega)]; rfl

/-- The first loop leaves a non-negative angle alone and takes a negative one to its
residue modulo `5760`. -/
theorem normalizeNegLoop_eq (a : Int) :
    normalizeNegLoop a = if a < 0 then a % 5760 else a := by
  induction a using normalizeNegLoop.induct with
  | case1 a h ih =>
    have ih2 : normalizeNegLoop (a + 5760) =
        if a + 5760 < 0 then (a + 5760) % 5760 else a + 5760 := ih
    rw [normalizeNegLoop_of_neg h, if_pos h, ih2]
    split
    · simp
    · omega
  | case2 a h =>
    rw [normalizeNegLoop_of_nonneg (not_lt.mp h), if_neg h]

/-- The second loop leaves an angle of at most `5760` alone and takes a larger one to the
representative of its residue class in `(0, 5760]`. -/
theorem normalizePosLoop_eq (a : Int) :
    normalizePosLoop a = if 5760 < a then (a - 1) % 5760 + 1 else a := by
  induction a using normalizePosLoop.induct with
  | case1 a h ih =>
    have h2 : 5760 < a := by have : a > 360 * 16 := h; omega
    have ih2 : normalizePosLoop (a - 5760) =
        if 5760 < a - 5760 then (a - 5760 - 1) % 5760 + 1 else a - 5760 := ih
    rw [normalizePosLoop_of_gt h2, if_pos h2, ih2]
    split <;> omega
  | case2 a h =>
    have h2 : a ≤ 5760 := by have : ¬ a > 360 * 16 := h; omega
    rw [normalizePosLoop_of_le h2, if_neg (by omega)]

/-- Closed form of `qNormalizeAngle`. -/
theorem qNormalizeAngle_eq (a : Int) :
    qNormalizeAngle a =
      if a < 0 then a % 5760 else if 5760 < a then (a - 1) % 5760 + 1 else a := by
  unfold qNormalizeAngle
  rw [normalizeNegLoop_eq]
  split
  · rw [normalizePosLoop_of_le (by omega)]
  · rw [normalizePosLoop_eq]

theorem qNormalizeAngle_nonneg (a : Int) : 0 ≤ qNormalizeAngle a := by
  rw [qNormalizeAngle_eq]; split_ifs <;> omega

theorem qNormalizeAngle_le (a : Int) : qNormalizeAngle a ≤ 5760 := by
  rw [qNormalizeAngle_eq]; split_ifs <;> omega

/-- An angle already in `[0, 5760]` is returned as it is. -/
theorem qNormalizeAngle_of_mem {a : Int} (h0 : 0 ≤ a) (h1 : a ≤ 5760) :
    qNormalizeAngle a = a := by
  rw [qNormalizeAngle_eq, if_neg (by omega), if_neg (by omega)]

/-- The result is `5760` exactly for the positive multiples of `5760`. -/
theorem qNormalizeAngle_eq_top_iff (a : Int) :
    qNormalizeAngle a = 5760 ↔ 0 < a ∧ (5760 : Int) ∣ a := by
  rw [qNormalizeAngle_eq]; split_ifs <;> omega

/-- The result is congruent to the argument modulo `5760`. -/
theorem qNormalizeAngle_dvd_sub (a : Int) : (5760 : Int) ∣ qNormalizeAngle a - a := by
  rw [qNormalizeAngle_eq]; split_ifs <;> omega

/-! ## Claims on `qNormalizeAngle` -/

/-- C1 (as stated, refuted): the claim puts every result in `[0, 5760)` and says that
`5760` normalises to `0`.  On the code `qNormalizeAngle 5760` is `5760`: neither loop
condition (`angle < 0`, `angle > 5760`) holds, so the result is not below `5760` and is
not `0`. -/
theorem C1_counterexample :
    qNormalizeAngle 5760 = 5760 ∧ ¬ qNormalizeAngle 5760 < 5760 ∧ qNormalizeAngle 5760 ≠ 0 := by
  have h : qNormalizeAngle 5760 = 5760 := by
    simp [qNormalizeAngle, normalizeNegLoop, normalizePosLoop]
  rw [h]; decide

/-- C1 (amended): for every integer `a`, `qNormalizeAngle a` lies in the closed range
`[0, 5760]`, and it is below `5760` unless `a` is a positive multiple of `5760`; in
particular `qNormalizeAngle 5760 = 5760`. -/
theorem C1_qNormalizeAngle_range (a : Int) :
    (0 ≤ qNormalizeAngle a ∧ qNormalizeAngle a ≤ 5760) ∧
    (¬ (0 < a ∧ (5760 : Int) ∣ a) → qNormalizeAngle a < 5760) ∧
    qNormalizeAngle 5760 = 5760 := by
  refine ⟨⟨qNormalizeAngle_nonneg a, qNormalizeAngle_le a⟩, ?_, ?_⟩
  · intro h
    have h1 := qNormalizeAngle_le a
    have h2 : qNormalizeAngle a ≠ 5760 := fun e => h ((qNormalizeAngle_eq_top_iff a).mp e)
    omega
  · exact qNormalizeAngle_of_mem (by decide) (by decide)

/-- C1 (amended), at the angle `-1`: it is not a positive multiple of `5760`, and its
normal form `5759` is below `5760`. -/
theorem C1_qNormalizeAngle_range_witness :
    ¬ (0 < (-1 : Int) ∧ (5760 : Int) ∣ -1) ∧ qNormalizeAngle (-1) = 5759 ∧
    qNormalizeAngle (-1) < 5760 :=
  ⟨by decide, by simp [qNormalizeAngle, normalizeNegLoop, normalizePosLoop],
    (C1_qNormalizeAngle_range (-1)).2.1 (by decide)⟩

/-- C8: `qNormalizeAngle` is idempotent: normalising a normalised angle returns it
unchanged. -/
theorem C8_qNormalizeAngle_idempotent (a : Int) :
    qNormalizeAngle (qNormalizeAngle a) = qNormalizeAngle a :=
  qNormalizeAngle_of_mem (qNormalizeAngle_nonneg a) (qNormalizeAngle_le a)

/-- C10: closed form of the normalisation rule.  For every integer `a` the function is
total (both loops terminate) and its result `r` satisfies `0 ≤ r ≤ 5760`, `r ≡ a` modulo
`5760`, and `r = 5760` exactly when `a` is a positive multiple of `5760`; `r` is the only
integer with these three properties; for every other `a` it is `a % 5760`; and the value
`5760` is left as `5760`. -/
theorem C10_qNormalizeAngle_closed_form (a : Int) :
    (0 ≤ qNormalizeAngle a ∧ qNormalizeAngle a ≤ 5760) ∧
    (5760 : Int) ∣ qNormalizeAngle a - a ∧
    (qNormalizeAngle a = 5760 ↔ 0 < a ∧ (5760 : Int) ∣ a) ∧
    (∀ r : Int, 0 ≤ r → r ≤ 5760 → (5760 : Int) ∣ r - a →
      (r = 5760 ↔ 0 < a ∧ (5760 : Int) ∣ a) → r = qNormalizeAngle a) ∧
    (¬ (0 < a ∧ (5760 : Int) ∣ a) → qNormalizeAngle a = a % 5760) ∧
    qNormalizeAngle 5760 = 5760 := by
  refine ⟨⟨qNormalizeAngle_nonneg a, qNormalizeAngle_le a⟩, qNormalizeAngle_dvd_sub a,
    qNormalizeAngle_eq_top_iff a, ?_, ?_, qNormalizeAngle_of_mem (by decide) (by decide)⟩
  · intro r h0 h1 hd hr
    have q0 := qNormalizeAngle_nonneg a
    have q1 := qNormalizeAngle_le a
    have qd := qNormalizeAngle_dvd_sub a
    have qr := qNormalizeAngle_eq_top_iff a
    by_cases hp : 0 < a ∧ (5760 : Int) ∣ a
    · rw [hr.mpr hp, qr.mpr hp]
    · have hr2 : r ≠ 5760 := fun e => hp (hr.mp e)
      have hq2 : qNormalizeAngle a ≠ 5760 := fun e => hp (qr.mp e)
      omega
  · intro hp
    have q0 := qNormalizeAngle_nonneg a
    have q1 := qNormalizeAngle_le a
    have qd := qNormalizeAngle_dvd_sub a
    have hq2 : qNormalizeAngle a ≠ 5760 := fun e => hp ((qNormalizeAngle_eq_top_iff a).mp e)
    omega

/-- C10, at the angle `11520 = 2 * 5760`: a positive multiple of `5760`, whose normal form
is `5760`; any `r` meeting the three conditions equals it. -/
theorem C10_qNormalizeAngle_closed_form_witness :
    qNormalizeAngle 11520 = 5760 ∧ (0 < (11520 : Int) ∧ (5760 : Int) ∣ 11520) ∧
    (5760 : Int) = qNormalizeAngle 11520 :=
  ⟨by simp [qNormalizeAngle, normalizeNegLoop, normalizePosLoop], by decide,
    (C10_qNormalizeAngle_closed_form 11520).2.2.2.1 5760 (by decide) (by decide) (by decide)
      (by decide)⟩

/-! ## Rotation setters and `rotateBy` -/

namespace GLWidget

theorem setXRotation_fields (a : Int) (w : GLWidget) :
    (w.setXRotation a).xRot = qNormalizeAngle a ∧ (w.setXRotation a).yRot = w.yRot ∧
    (w.setXRotation a).zRot = w.zRot ∧ (w.setXRotation a).lastPos = w.lastPos ∧
    (w.setXRotation a).clickedEmitted = w.clickedEmitted ∧
    (w.setXRotation a).updateCalls =
      w.updateCalls + (if qNormalizeAngle a ≠ w.xRot then 1 else 0) := by
  unfold setXRotation update
  by_cases h : qNormalizeAngle a = w.xRot <;> simp [h]

theorem setYRotation_fields (a : Int) (w : GLWidget) :
    (w.setYRotation a).yRot = qNormalizeAngle a ∧ (w.setYRotation a).xRot = w.xRot ∧
    (w.setYRotation a).zRot = w.zRot ∧ (w.setYRotation a).lastPos = w.lastPos ∧
    (w.setYRotation a).clickedEmitted = w.clickedEmitted ∧
    (w.setYRotation a).updateCalls =
      w.updateCalls + (if qNormalizeAngle a ≠ w.yRot then 1 else 0) := by
  unfold setYRotation update
  by_cases h : qNormalizeAngle a = w.yRot <;> simp [h]

theorem setZRotation_fields (a : Int) (w : GLWidget) :
    (w.setZRotation a).zRot = qNormalizeAngle a ∧ (w.setZRotation a).xRot = w.xRot ∧
    (w.setZRotation a).yRot = w.yRot ∧ (w.setZRotation a).lastPos = w.lastPos ∧
    (w.setZRotation a).clickedEmitted = w.clickedEmitted ∧
    (w.setZRotation a).updateCalls =
      w.updateCalls + (if qNormalizeAngle a ≠ w.zRot then 1 else 0) := by
  unfold setZRotation update
  by_cases h : qNormalizeAngle a = w.zRot <;> simp [h]

/-- A setter called with the angle whose normal form is already stored returns the widget
as it is. -/
theorem setXRotation_of_eq {a : Int} {w : GLWidget} (h : qNormalizeAngle a = w.xRot) :
    w.setXRotation a = w := by
  simp [setXRotation, h]

theorem setYRotation_of_eq {a : Int} {w : GLWidget} (h : qNormalizeAngle a = w.yRot) :
    w.setYRotation a = w := by
  simp [setYRotation, h]

theorem setZRotation_of_eq {a : Int} {w : GLWidget} (h : qNormalizeAngle a = w.zRot) :
    w.setZRotation a = w := by
  simp [setZRotation, h]

end GLWidget

/-- C3: each setter leaves its own accumulator at `qNormalizeAngle a`, leaves the other two
accumulators unchanged, and calls `update()` once when `qNormalizeAngle a` differs from the
value stored before and not at all otherwise; a second call with the same angle returns
the widget unchanged (no accumulator changes, no further `update()`). -/
theorem C3_setters (w : GLWidget) (a : Int) :
    ((w.setXRotation a).xRot = qNormalizeAngle a ∧ (w.setXRotation a).yRot = w.yRot ∧
      (w.setXRotation a).zRot = w.zRot ∧
      (w.setXRotation a).updateCalls =
        w.updateCalls + (if qNormalizeAngle a ≠ w.xRot then 1 else 0) ∧
      (w.setXRotation a).setXRotation a = w.setXRotation a) ∧
    ((w.setYRotation a).yRot = qNormalizeAngle a ∧ (w.setYRotation a).xRot = w.xRot ∧
      (w.setYRotation a).zRot = w.zRot ∧
      (w.setYRotation a).updateCalls =
        w.updateCalls + (if qNormalizeAngle a ≠ w.yRot then 1 else 0) ∧
      (w.setYRotation a).setYRotation a = w.setYRotation a) ∧
    ((w.setZRotation a).zRot = qNormalizeAngle a ∧ (w.setZRotation a).xRot = w.xRot ∧
      (w.setZRotation a).yRot = w.yRot ∧
      (w.setZRotation a).updateCalls =
        w.updateCalls + (if qNormalizeAngle a ≠ w.zRot then 1 else 0) ∧
      (w.setZRotation a).setZRotation a = w.setZRotation a) := by
  obtain ⟨x1, x2, x3, -, -, x4⟩ := GLWidget.setXRotation_fields a w
  obtain ⟨y1, y2, y3, -, -, y4⟩ := GLWidget.setYRotation_fields a w
  obtain ⟨z1, z2, z3, -, -, z4⟩ := GLWidget.setZRotation_fields a w
  exact ⟨⟨x1, x2, x3, x4, GLWidget.setXRotation_of_eq x1.symm⟩,
    ⟨y1, y2, y3, y4, GLWidget.setYRotation_of_eq y1.symm⟩,
    ⟨z1, z2, z3, z4, GLWidget.setZRotation_of_eq z1.symm⟩⟩

/-- The accumulators and the redraw count after `rotateBy`. -/
theorem GLWidget.rotateBy_fields (w : GLWidget) (dx dy dz : Int) :
    (w.rotateBy dx dy dz).xRot = wrapInt32 (w.xRot + dx) ∧
    (w.rotateBy dx dy dz).yRot = wrapInt32 (w.yRot + dy) ∧
    (w.rotateBy dx dy dz).zRot = wrapInt32 (w.zRot + dz) ∧
    (w.rotateBy dx dy dz).updateCalls = w.updateCalls + 1 :=
  ⟨rfl, rfl, rfl, rfl⟩

/-- C5 (as stated, refuted): the claim puts `xRot + dx` in the accumulator for all integers.
The accumulator is a 32-bit `int`: after `rotateBy(2147483647, 0, 0)` on the constructed
widget it holds `2147483647`, and a further `rotateBy(1, 0, 0)` leaves `-2147483648`, not
`2147483648`. -/
theorem C5_counterexample :
    (run [.rotateBy 2147483647 0 0] GLWidget.new).xRot = 2147483647 ∧
    ((run [.rotateBy 2147483647 0 0] GLWidget.new).rotateBy 1 0 0).xRot = -2147483648 ∧
    ((run [.rotateBy 2147483647 0 0] GLWidget.new).rotateBy 1 0 0).xRot ≠
      (run [.rotateBy 2147483647 0 0] GLWidget.new).xRot + 1 := by
  decide

/-- C5 (amended): `rotateBy dx dy dz` leaves each accumulator at the 32-bit sum of its old
value and the delta, with no normalisation: the sums `xRot + dx`, `yRot + dy`, `zRot + dz`
themselves whenever they are `int` values, their reduction modulo `2 ^ 32` otherwise.  It
calls `update()` exactly once, whatever the deltas (also when all are `0`).  Two calls in
a row leave the same three accumulators as one call with the summed deltas, the sums of the
deltas taken on `int` or exactly. -/
theorem C5_rotateBy (w : GLWidget) (dx dy dz : Int) :
    ((w.rotateBy dx dy dz).xRot = wrapInt32 (w.xRot + dx) ∧
      (w.rotateBy dx dy dz).yRot = wrapInt32 (w.yRot + dy) ∧
      (w.rotateBy dx dy dz).zRot = wrapInt32 (w.zRot + dz)) ∧
    ((IsInt32 (w.xRot + dx) → (w.rotateBy dx dy dz).xRot = w.xRot + dx) ∧
      (IsInt32 (w.yRot + dy) → (w.rotateBy dx dy dz).yRot = w.yRot + dy) ∧
      (IsInt32 (w.zRot + dz) → (w.rotateBy dx dy dz).zRot = w.zRot + dz)) ∧
    (w.rotateBy dx dy dz).updateCalls = w.updateCalls + 1 ∧
    (w.rotateBy 0 0 0).updateCalls = w.updateCalls + 1 ∧
    (∀ d e f : Int,
      ((w.rotateBy dx dy dz).rotateBy d e f).xRot =
        (w.rotateBy (wrapInt32 (dx + d)) (wrapInt32 (dy + e)) (wrapInt32 (dz + f))).xRot ∧
      ((w.rotateBy dx dy dz).rotateBy d e f).yRot =
        (w.rotateBy (wrapInt32 (dx + d)) (wrapInt32 (dy + e)) (wrapInt32 (dz + f))).yRot ∧
      ((w.rotateBy dx dy dz).rotateBy d e f).zRot =
        (w.rotateBy (wrapInt32 (dx + d)) (wrapInt32 (dy + e)) (wrapInt32 (dz + f))).zRot) ∧
    (∀ d e f : Int,
      ((w.rotateBy dx dy dz).rotateBy d e f).xRot = (w.rotateBy (dx + d) (dy + e) (dz + f)).xRot ∧
      ((w.rotateBy dx dy dz).rotateBy d e f).yRot = (w.rotateBy (dx + d) (dy + e) (dz + f)).yRot ∧
      ((w.rotateBy dx dy dz).rotateBy d e f).zRot =
        (w.rotateBy (dx + d) (dy + e) (dz + f)).zRot) := by
  have assoc1 : ∀ a b c : Int, wrapInt32 (wrapInt32 (a + b) + c) = wrapInt32 (a + wrapInt32 (b + c)) := by
    intro a b c; unfold wrapInt32; omega
  have assoc2 : ∀ a b c : Int, wrapInt32 (wrapInt32 (a + b) + c) = wrapInt32 (a + (b + c)) := by
    intro a b c; unfold wrapInt32; omega
  refine ⟨⟨rfl, rfl, rfl⟩, ⟨?_, ?_, ?_⟩, rfl, rfl, ?_, ?_⟩
  · exact fun h => wrapInt32_of_isInt32 h
  · exact fun h => wrapInt32_of_isInt32 h
  · exact fun h => wrapInt32_of_isInt32 h
  · intro d e f
    exact ⟨assoc1 _ _ _, assoc1 _ _ _, assoc1 _ _ _⟩
  · intro d e f
    exact ⟨assoc2 _ _ _, assoc2 _ _ _, assoc2 _ _ _⟩

/-- C5 (amended), on the constructed widget with the deltas `16`, `-32`, `5760`: the three
sums are `int` values and are stored as they are, `5760` without normalisation. -/
theorem C5_rotateBy_witness :
    (IsInt32 (GLWidget.new.xRot + 16) ∧ (GLWidget.new.rotateBy 16 (-32) 5760).xRot = 16) ∧
    (IsInt32 (GLWidget.new.yRot + -32) ∧ (GLWidget.new.rotateBy 16 (-32) 5760).yRot = -32) ∧
    (IsInt32 (GLWidget.new.zRot + 5760) ∧ (GLWidget.new.rotateBy 16 (-32) 5760).zRot = 5760) :=
  ⟨⟨by decide, (C5_rotateBy GLWidget.new 16 (-32) 5760).2.1.1 (by decide)⟩,
    ⟨by decide, (C5_rotateBy GLWidget.new 16 (-32) 5760).2.1.2.1 (by decide)⟩,
    ⟨by decide, (C5_rotateBy GLWidget.new 16 (-32) 5760).2.1.2.2 (by decide)⟩⟩

/-! ## Mouse handlers -/

/-- What `mouseMoveEvent` leaves in the accumulators and in `lastPos`, by the buttons held. -/
theorem GLWidget.mouseMoveEvent_fields (w : GLWidget) (event : QMouseEvent) :
    (event.buttons &&& LeftButton ≠ 0 →
      (w.mouseMoveEvent event).xRot =
        qNormalizeAngle (wrapInt32 (w.xRot + 8 * (event.pos.y - w.lastPos.y))) ∧
      (w.mouseMoveEvent event).yRot =
        qNormalizeAngle (wrapInt32 (w.yRot + 8 * (event.pos.x - w.lastPos.x))) ∧
      (w.mouseMoveEvent event).zRot = w.zRot) ∧
    (event.buttons &&& LeftButton = 0 → event.buttons &&& RightButton ≠ 0 →
      (w.mouseMoveEvent event).xRot =
        qNormalizeAngle (wrapInt32 (w.xRot + 8 * (event.pos.y - w.lastPos.y))) ∧
      (w.mouseMoveEvent event).zRot =
        qNormalizeAngle (wrapInt32 (w.zRot + 8 * (event.pos.x - w.lastPos.x))) ∧
      (w.mouseMoveEvent event).yRot = w.yRot) ∧
    (event.buttons &&& LeftButton = 0 → event.buttons &&& RightButton = 0 →
      (w.mouseMoveEvent event).xRot = w.xRot ∧ (w.mouseMoveEvent event).yRot = w.yRot ∧
      (w.mouseMoveEvent event).zRot = w.zRot) ∧
    (w.mouseMoveEvent event).lastPos = event.pos := by
  have hax := wrapInt32_drag w.xRot event.pos.y w.lastPos.y
  obtain ⟨x1, x2, x3, -⟩ := GLWidget.setXRotation_fields
    (wrapInt32 (w.xRot + wrapInt32 (8 * wrapInt32 (event.pos.y - w.lastPos.y)))) w
  refine ⟨?_, ?_, ?_, ?_⟩
  · intro hl
    obtain ⟨y1, y2, y3, -⟩ := GLWidget.setYRotation_fields
      (wrapInt32 ((w.setXRotation (wrapInt32 (w.xRot + wrapInt32 (8 * wrapInt32 (event.pos.y - w.lastPos.y))))).yRot +
          wrapInt32 (8 * wrapInt32 (event.pos.x - w.lastPos.x))))
      (w.setXRotation (wrapInt32 (w.xRot + wrapInt32 (8 * wrapInt32 (event.pos.y - w.lastPos.y)))))
    simp only [GLWidget.mouseMoveEvent, if_pos hl]
    refine ⟨(y2.trans x1).trans (congrArg qNormalizeAngle hax), y1.trans ?_, y3.trans x3⟩
    rw [x2]
    exact congrArg qNormalizeAngle (wrapInt32_drag w.yRot event.pos.x w.lastPos.x)
  · intro hl hr
    obtain ⟨z1, z2, z3, -⟩ := GLWidget.setZRotation_fields
      (wrapInt32 ((w.setXRotation (wrapInt32 (w.xRot + wrapInt32 (8 * wrapInt32 (event.pos.y - w.lastPos.y))))).zRot +
          wrapInt32 (8 * wrapInt32 (event.pos.x - w.lastPos.x))))
      (w.setXRotation (wrapInt32 (w.xRot + wrapInt32 (8 * wrapInt32 (event.pos.y - w.lastPos.y)))))
    simp only [GLWidget.mouseMoveEvent, if_neg (not_not.mpr hl), if_pos hr]
    refine ⟨(z2.trans x1).trans (congrArg qNormalizeAngle hax), z1.trans ?_, z3.trans x2⟩
    rw [x3]
    exact congrArg qNormalizeAngle (wrapInt32_drag w.zRot event.pos.x w.lastPos.x)
  · intro hl hr
    simp [GLWidget.mouseMoveEvent, hl, hr]
  · rfl

/-- C4 (as stated, refuted): the claim puts `qNormalizeAngle (xRot + 8 * dy)` in `xRot` for
every state and event.  The sum is a 32-bit `int` operation: on the widget reached by
`rotateBy(2147483640, 0, 0)` from the constructed one, a left-button move from `(0, 0)` to
`(0, 1)` computes `2147483640 + 8` as `-2147483648` and stores its normal form `5632`, while
the normal form of the exact sum `2147483648` is `128`. -/
theorem C4_counterexample :
    (run [.rotateBy 2147483640 0 0] GLWidget.new).xRot = 2147483640 ∧
    (run [.rotateBy 2147483640 0 0] GLWidget.new).lastPos = ⟨0, 0⟩ ∧
    (⟨⟨0, 1⟩, LeftButton⟩ : QMouseEvent).buttons &&& LeftButton ≠ 0 ∧
    ((run [.rotateBy 2147483640 0 0] GLWidget.new).mouseMoveEvent ⟨⟨0, 1⟩, LeftButton⟩).xRot =
      5632 ∧
    qNormalizeAngle (2147483640 + 8 * (1 - 0)) = 128 := by
  have hw : run [.rotateBy 2147483640 0 0] GLWidget.new = ⟨2147483640, 0, 0, ⟨0, 0⟩, 1, 0⟩ := by
    decide
  have hwrap : wrapInt32 (2147483640 + 8 * (1 - 0)) = -2147483648 := by decide
  have h5632 : qNormalizeAngle (-2147483648) = 5632 := by
    rw [qNormalizeAngle_eq]; decide
  have h128 : qNormalizeAngle (2147483640 + 8 * (1 - 0)) = 128 := by
    rw [qNormalizeAngle_eq]; decide
  have hx := ((GLWidget.mouseMoveEvent_fields ⟨2147483640, 0, 0, ⟨0, 0⟩, 1, 0⟩
    ⟨⟨0, 1⟩, LeftButton⟩).1 (by decide)).1
  rw [hw]
  refine ⟨rfl, rfl, by decide, ?_, h128⟩
  rw [hx]
  show qNormalizeAngle (wrapInt32 (2147483640 + 8 * (1 - 0))) = 5632
  rw [hwrap, h5632]

/-- C4 (amended): pointer-move mapping on 32-bit `int`.  With `dx`, `dy` the offsets of the
event position from `lastPos`: when the left button is held, `xRot` becomes
`qNormalizeAngle` of the 32-bit sum `xRot + 8 * dy`, `yRot` becomes `qNormalizeAngle` of the
32-bit sum `yRot + 8 * dx`, and `zRot` is unchanged; when the right button is held and the
left is not, the same holds with `zRot` in place of `yRot`, and `yRot` is unchanged; when
neither is held no accumulator changes; in every case `lastPos` becomes the event position.
Each 32-bit sum is the exact sum, so that the accumulator is `qNormalizeAngle (xRot + 8 * dy)`
(and likewise for `dx`), whenever the exact sum is an `int` value. -/
theorem C4_mouseMoveEvent (w : GLWidget) (event : QMouseEvent) :
    (event.buttons &&& LeftButton ≠ 0 →
      ((w.mouseMoveEvent event).xRot =
          qNormalizeAngle (wrapInt32 (w.xRot + 8 * (event.pos.y - w.lastPos.y))) ∧
        (w.mouseMoveEvent event).yRot =
          qNormalizeAngle (wrapInt32 (w.yRot + 8 * (event.pos.x - w.lastPos.x))) ∧
        (w.mouseMoveEvent event).zRot = w.zRot) ∧
      (IsInt32 (w.xRot + 8 * (event.pos.y - w.lastPos.y)) →
        (w.mouseMoveEvent event).xRot =
          qNormalizeAngle (w.xRot + 8 * (event.pos.y - w.lastPos.y))) ∧
      (IsInt32 (w.yRot + 8 * (event.pos.x - w.lastPos.x)) →
        (w.mouseMoveEvent event).yRot =
          qNormalizeAngle (w.yRot + 8 * (event.pos.x - w.lastPos.x)))) ∧
    (event.buttons &&& LeftButton = 0 → event.buttons &&& RightButton ≠ 0 →
      ((w.mouseMoveEvent event).xRot =
          qNormalizeAngle (wrapInt32 (w.xRot + 8 * (event.pos.y - w.lastPos.y))) ∧
        (w.mouseMoveEvent event).zRot =
          qNormalizeAngle (wrapInt32 (w.zRot + 8 * (event.pos.x - w.lastPos.x))) ∧
        (w.mouseMoveEvent event).yRot = w.yRot) ∧
      (IsInt32 (w.xRot + 8 * (event.pos.y - w.lastPos.y)) →
        (w.mouseMoveEvent event).xRot =
          qNormalizeAngle (w.xRot + 8 * (event.pos.y - w.lastPos.y))) ∧
      (IsInt32 (w.zRot + 8 * (event.pos.x - w.lastPos.x)) →
        (w.mouseMoveEvent event).zRot =
          qNormalizeAngle (w.zRot + 8 * (event.pos.x - w.lastPos.x)))) ∧
    (event.buttons &&& LeftButton = 0 → event.buttons &&& RightButton = 0 →
      (w.mouseMoveEvent event).xRot = w.xRot ∧ (w.mouseMoveEvent event).yRot = w.yRot ∧
      (w.mouseMoveEvent event).zRot = w.zRot) ∧
    (w.mouseMoveEvent event).lastPos = event.pos := by
  obtain ⟨hl, hr, hn, hp⟩ := GLWidget.mouseMoveEvent_fields w event
  refine ⟨?_, ?_, hn, hp⟩
  · intro bl
    obtain ⟨e1, e2, e3⟩ := hl bl
    refine ⟨⟨e1, e2, e3⟩, ?_, ?_⟩
    · intro hi; rw [e1, wrapInt32_of_isInt32 hi]
    · intro hi; rw [e2, wrapInt32_of_isInt32 hi]
  · intro bl br
    obtain ⟨e1, e2, e3⟩ := hr bl br
    refine ⟨⟨e1, e2, e3⟩, ?_, ?_⟩
    · intro hi; rw [e1, wrapInt32_of_isInt32 hi]
    · intro hi; rw [e2, wrapInt32_of_isInt32 hi]

/-- C4 (amended), the drag of the specification: from the constructed widget (all
accumulators `0`, `lastPos` the origin) a move to `(10, 5)` with the left button held has
sums `40` and `80` within `int` and gives `xRot = 40`, `yRot = 80`, `zRot = 0`. -/
theorem C4_mouseMoveEvent_witness :
    (⟨⟨10, 5⟩, LeftButton⟩ : QMouseEvent).buttons &&& LeftButton ≠ 0 ∧
    IsInt32 (GLWidget.new.xRot + 8 * (5 - GLWidget.new.lastPos.y)) ∧
    IsInt32 (GLWidget.new.yRot + 8 * (10 - GLWidget.new.lastPos.x)) ∧
    (GLWidget.new.mouseMoveEvent ⟨⟨10, 5⟩, LeftButton⟩).xRot = 40 ∧
    (GLWidget.new.mouseMoveEvent ⟨⟨10, 5⟩, LeftButton⟩).yRot = 80 ∧
    (GLWidget.new.mouseMoveEvent ⟨⟨10, 5⟩, LeftButton⟩).zRot = 0 := by
  have h := (C4_mouseMoveEvent GLWidget.new ⟨⟨10, 5⟩, LeftButton⟩).1 (by decide)
  have q40 : qNormalizeAngle 40 = 40 := by
    simp [qNormalizeAngle, normalizeNegLoop, normalizePosLoop]
  have q80 : qNormalizeAngle 80 = 80 := by
    simp [qNormalizeAngle, normalizeNegLoop, normalizePosLoop]
  refine ⟨by decide, by decide, by decide, ?_, ?_, ?_⟩
  · rw [h.2.1 (by decide)]; exact q40
  · rw [h.2.2 (by decide)]; exact q80
  · rw [h.1.2.2]; rfl

/-- C9: a pointer release emits exactly one `clicked` and changes no rotation accumulator
(nor anything else), whatever its event and whatever the widget state; a pointer press
only records the event position in `lastPos` and emits nothing. -/
theorem C9_press_release (w : GLWidget) (event : QMouseEvent) :
    ((w.mouseReleaseEvent event).clickedEmitted = w.clickedEmitted + 1 ∧
      (w.mouseReleaseEvent event).xRot = w.xRot ∧ (w.mouseReleaseEvent event).yRot = w.yRot ∧
      (w.mouseReleaseEvent event).zRot = w.zRot ∧
      (w.mouseReleaseEvent event).lastPos = w.lastPos ∧
      (w.mouseReleaseEvent event).updateCalls = w.updateCalls) ∧
    ((w.mousePressEvent event).lastPos = event.pos ∧
      (w.mousePressEvent event).clickedEmitted = w.clickedEmitted ∧
      (w.mousePressEvent event).xRot = w.xRot ∧ (w.mousePressEvent event).yRot = w.yRot ∧
      (w.mousePressEvent event).zRot = w.zRot ∧
      (w.mousePressEvent event).updateCalls = w.updateCalls) :=
  ⟨⟨rfl, rfl, rfl, rfl, rfl, rfl⟩, ⟨rfl, rfl, rfl, rfl, rfl, rfl⟩⟩

/-- C9, the click of the specification: a press at `(10, 10)` followed at once by a release
at `(10, 10)` on the constructed widget emits exactly one `clicked`. -/
theorem C9_press_release_witness :
    (run [.mousePressEvent ⟨⟨10, 10⟩, LeftButton⟩, .mouseReleaseEvent ⟨⟨10, 10⟩, 0⟩]
      GLWidget.new).clickedEmitted = 1 := by
  have h1 := (C9_press_release GLWidget.new ⟨⟨10, 10⟩, LeftButton⟩).2.2.1
  have h2 := (C9_press_release (GLWidget.new.mousePressEvent ⟨⟨10, 10⟩, LeftButton⟩)
    ⟨⟨10, 10⟩, 0⟩).1.1
  simp only [run, List.foldl, Op.apply]
  rw [h2, h1]; rfl

/-! ## The range invariant of the rotation state -/

theorem Op.apply_inClosedRange {op : Op} (hop : op.isRotateBy = false) {w : GLWidget}
    (hw : InClosedRange w) : InClosedRange (op.apply w) := by
  obtain ⟨hx, hy, hz⟩ := hw
  cases op with
  | setXRotation a =>
    obtain ⟨e1, e2, e3, -⟩ := GLWidget.setXRotation_fields a w
    simp only [Op.apply, InClosedRange, e1, e2, e3]
    exact ⟨⟨qNormalizeAngle_nonneg _, qNormalizeAngle_le _⟩, hy, hz⟩
  | setYRotation a =>
    obtain ⟨e1, e2, e3, -⟩ := GLWidget.setYRotation_fields a w
    simp only [Op.apply, InClosedRange, e1, e2, e3]
    exact ⟨hx, ⟨qNormalizeAngle_nonneg _, qNormalizeAngle_le _⟩, hz⟩
  | setZRotation a =>
    obtain ⟨e1, e2, e3, -⟩ := GLWidget.setZRotation_fields a w
    simp only [Op.apply, InClosedRange, e1, e2, e3]
    exact ⟨hx, hy, ⟨qNormalizeAngle_nonneg _, qNormalizeAngle_le _⟩⟩
  | rotateBy dx dy dz => simp [Op.isRotateBy] at hop
  | mousePressEvent e => exact ⟨hx, hy, hz⟩
  | mouseReleaseEvent e => exact ⟨hx, hy, hz⟩
  | mouseMoveEvent e =>
    obtain ⟨hl, hr, hn, -⟩ := GLWidget.mouseMoveEvent_fields w e
    simp only [Op.apply, InClosedRange]
    by_cases bl : e.buttons &&& LeftButton = 0
    · by_cases br : e.buttons &&& RightButton = 0
      · obtain ⟨e1, e2, e3⟩ := hn bl br
        rw [e1, e2, e3]; exact ⟨hx, hy, hz⟩
      · obtain ⟨e1, e2, e3⟩ := hr bl br
        rw [e1, e2, e3]
        exact ⟨⟨qNormalizeAngle_nonneg _, qNormalizeAngle_le _⟩, hy,
          ⟨qNormalizeAngle_nonneg _, qNormalizeAngle_le _⟩⟩
    · obtain ⟨e1, e2, e3⟩ := hl bl
      rw [e1, e2, e3]
      exact ⟨⟨qNormalizeAngle_nonneg _, qNormalizeAngle_le _⟩,
        ⟨qNormalizeAngle_nonneg _, qNormalizeAngle_le _⟩, hz⟩

theorem run_inClosedRange (ops : List Op) (hops : ∀ op ∈ ops, op.isRotateBy = false)
    (w : GLWidget) (hw : InClosedRange w) : InClosedRange (run ops w) := by
  induction ops generalizing w with
  | nil => exact hw
  | cons op ops ih =>
    have h1 : op.isRotateBy = false := hops op (List.mem_cons_self op ops)
    have h2 : ∀ o ∈ ops, o.isRotateBy = false := fun o ho => hops o (List.mem_cons_of_mem op ho)
    exact ih h2 (op.apply w) (Op.apply_inClosedRange h1 hw)

/-- C2 (as stated, refuted): the claim puts every accumulator in `[0, 5760)` after every
sequence of mutating operations from the constructed state.  After the single call
`rotateBy(-1, 0, 0)` the accumulator `xRot` is `-1`, and after the single call
`setXRotation(5760)` it is `5760`; neither state is in range. -/
theorem C2_counterexample :
    ((run [.rotateBy (-1) 0 0] GLWidget.new).xRot = -1 ∧
      ¬ InHalfOpenRange (run [.rotateBy (-1) 0 0] GLWidget.new)) ∧
    ((run [.setXRotation 5760] GLWidget.new).xRot = 5760 ∧
      ¬ InHalfOpenRange (run [.setXRotation 5760] GLWidget.new)) := by
  have h : (run [.setXRotation 5760] GLWidget.new).xRot = 5760 := by
    have hq : qNormalizeAngle 5760 = 5760 := by
      simp [qNormalizeAngle, normalizeNegLoop, normalizePosLoop]
    exact (GLWidget.setXRotation_fields 5760 GLWidget.new).1.trans hq
  refine ⟨⟨by decide, by decide⟩, h, ?_⟩
  intro hr
  have h2 := hr.1.2
  rw [h] at h2
  exact absurd h2 (by decide)

/-- C2 (amended): starting from the constructed state, after every sequence of setter calls
and mouse events (no `rotateBy`), with arbitrary integer arguments, each of `xRot`, `yRot`,
`zRot` lies in the closed range `[0, 5760]`. -/
theorem C2_rotation_invariant (ops : List Op) (hops : ∀ op ∈ ops, op.isRotateBy = false) :
    InClosedRange (run ops GLWidget.new) :=
  run_inClosedRange ops hops GLWidget.new (by decide)

/-- C2 (amended), on a sequence of three operations: a setter with a negative angle, a
left-button drag and a setter with the angle `5760`. -/
theorem C2_rotation_invariant_witness :
    (∀ op ∈ [Op.setXRotation (-1), Op.mouseMoveEvent ⟨⟨10, 5⟩, LeftButton⟩,
        Op.setZRotation 5760], op.isRotateBy = false) ∧
    InClosedRange (run [Op.setXRotation (-1), Op.mouseMoveEvent ⟨⟨10, 5⟩, LeftButton⟩,
        Op.setZRotation 5760] GLWidget.new) :=
  ⟨by decide, C2_rotation_invariant _ (by decide)⟩

/-! ## Mesh import: the three loops of `processMesh` -/

/-- A counted loop whose body, at every position of the array `xs`, succeeds with
`step s xs[i]` runs as a left fold of `step` over the part of `xs` it visits. -/
theorem forLoopFrom_eq_foldl {σ α : Type} (body : Nat → σ → Option σ) (xs : List α)
    (step : σ → α → σ)
    (hbody : ∀ (i : Nat) (s : σ) (h : i < xs.length), body i s = some (step s (xs.get ⟨i, h⟩)))
    (count i : Nat) (s : σ) (hle : i + count ≤ xs.length) :
    forLoopFrom body count i s = some (((xs.drop i).take count).foldl step s) := by
  induction count generalizing i s with
  | zero => simp [forLoopFrom]
  | succ n ih =>
    have hi : i < xs.length := by omega
    rw [forLoopFrom, hbody i s hi, Option.some_bind, ih (i + 1) _ (by omega),
      List.drop_eq_getElem_cons hi, List.take_succ_cons, List.foldl_cons]
    rfl

theorem forLoop_eq_foldl {σ α : Type} (body : Nat → σ → Option σ) (xs : List α)
    (step : σ → α → σ)
    (hbody : ∀ (i : Nat) (s : σ) (h : i < xs.length), body i s = some (step s (xs.get ⟨i, h⟩)))
    (s : σ) : forLoop xs.length body s = some (xs.foldl step s) := by
  rw [forLoop, forLoopFrom_eq_foldl body xs step hbody xs.length 0 s (by omega),
    List.drop_zero, List.take_length]

namespace ObjectModelRenerable

theorem foldl_pushVertex {R : Type} (vs : List (aiVector3D R)) (s : ObjectModelRenerable R) :
    vs.foldl (fun s vec => { s with m_vertices := ((s.m_vertices ++ [vec.x]) ++ [vec.y]) ++ [vec.z] })
      s = { s with m_vertices := s.m_vertices ++ vs.flatMap coords } := by
  induction vs generalizing s with
  | nil => simp
  | cons v vs ih => rw [List.foldl_cons, ih]; simp [coords, List.flatMap_cons]

theorem foldl_pushNormal {R : Type} (vs : List (aiVector3D R)) (s : ObjectModelRenerable R) :
    vs.foldl (fun s vec => { s with m_normals := ((s.m_normals ++ [vec.x]) ++ [vec.y]) ++ [vec.z] })
      s = { s with m_normals := s.m_normals ++ vs.flatMap coords } := by
  induction vs generalizing s with
  | nil => simp
  | cons v vs ih => rw [List.foldl_cons, ih]; simp [coords, List.flatMap_cons]

theorem foldl_pushFace (fs : List aiFace) {R : Type} (s : ObjectModelRenerable R) :
    fs.foldl (fun s face => { s with m_indices := s.m_indices ++ faceIndices face })
      s = { s with m_indices := s.m_indices ++ fs.flatMap faceIndices } := by
  induction fs generalizing s with
  | nil => simp
  | cons f fs ih => rw [List.foldl_cons, ih]; simp [List.flatMap_cons]

theorem vertexLoop_eq {R : Type} (mesh : aiMesh R)
    (hlen : mesh.mVertices.length = mesh.mNumVertices) (s : ObjectModelRenerable R) :
    forLoop mesh.mNumVertices (vertexBody mesh) s =
      some { s with m_vertices := s.m_vertices ++ mesh.mVertices.flatMap coords } := by
  rw [← hlen, forLoop_eq_foldl (vertexBody mesh) mesh.mVertices
    (fun s vec => { s with m_vertices := ((s.m_vertices ++ [vec.x]) ++ [vec.y]) ++ [vec.z] }),
    foldl_pushVertex]
  intro i s h
  simp [vertexBody, List.getElem?_eq_getElem h]

theorem normalLoop_eq {R : Type} (mesh : aiMesh R) (ns : List (aiVector3D R))
    (hns : mesh.mNormals = some ns) (hlen : ns.length = mesh.mNumVertices)
    (s : ObjectModelRenerable R) :
    forLoop mesh.mNumVertices (normalBody mesh) s =
      some { s with m_normals := s.m_normals ++ ns.flatMap coords } := by
  rw [← hlen, forLoop_eq_foldl (normalBody mesh) ns
    (fun s vec => { s with m_normals := ((s.m_normals ++ [vec.x]) ++ [vec.y]) ++ [vec.z] }),
    foldl_pushNormal]
  intro i s h
  simp [normalBody, hns, List.getElem?_eq_getElem h]

theorem faceBody_eq {R : Type} (mesh : aiMesh R) (hwf : ∀ face ∈ mesh.mFaces, face.WellFormed)
    (t : Nat) (s : ObjectModelRenerable R) (h : t < mesh.mFaces.length) :
    faceBody mesh t s =
      some { s with m_indices := s.m_indices ++ faceIndices (mesh.mFaces.get ⟨t, h⟩) } := by
  have hf : (mesh.mFaces.get ⟨t, h⟩).WellFormed := hwf _ (List.get_mem _ _ _)
  generalize hface : mesh.mFaces.get ⟨t, h⟩ = face at hf
  have hget : mesh.mFaces[t]? = some face := by
    rw [List.getElem?_eq_getElem h]; exact congrArg some hface
  unfold aiFace.WellFormed at hf
  by_cases h3 : face.mNumIndices = 3
  · rw [h3] at hf
    obtain ⟨n, is, hn⟩ : ∃ n is, face = ⟨n, is⟩ := ⟨face.mNumIndices, face.mIndices, rfl⟩
    subst hn
    simp only at hf h3
    match is, hf with
    | [a, b, c], _ => simp [faceBody, hget, h3, faceIndices]
  · simp [faceBody, hget, h3, faceIndices]

theorem faceLoop_eq {R : Type} (mesh : aiMesh R) (hlen : mesh.mFaces.length = mesh.mNumFaces)
    (hwf : ∀ face ∈ mesh.mFaces, face.WellFormed) (s : ObjectModelRenerable R) :
    forLoop mesh.mNumFaces (faceBody mesh) s =
      some { s with m_indices := s.m_indices ++ mesh.mFaces.flatMap faceIndices } := by
  rw [← hlen, forLoop_eq_foldl (faceBody mesh) mesh.mFaces
    (fun s face => { s with m_indices := s.m_indices ++ faceIndices face })
    (fun i s h => faceBody_eq mesh hwf i s h), foldl_pushFace]

/-- On a well-formed mesh `processMesh` returns, and it appends to the three vectors the
coordinates of the vertices, the coordinates of the normals (when the array is present) and
the indices of the triangular faces. -/
theorem processMesh_eq {R : Type} (mesh : aiMesh R) (hwf : mesh.WellFormed)
    (s : ObjectModelRenerable R) :
    processMesh mesh s = some
      { m_vertices := s.m_vertices ++ mesh.mVertices.flatMap coords,
        m_normals := s.m_normals ++ (mesh.mNormals.getD []).flatMap coords,
        m_indices := s.m_indices ++ mesh.mFaces.flatMap faceIndices } := by
  obtain ⟨hv, hn, hf, hfw⟩ := hwf
  have h1 : (if mesh.mNumVertices > 0 then forLoop mesh.mNumVertices (vertexBody mesh) s
      else some s) = some { s with m_vertices := s.m_vertices ++ mesh.mVertices.flatMap coords } := by
    split
    · exact vertexLoop_eq mesh hv s
    · have h0 : mesh.mVertices = [] := List.length_eq_zero.mp (by omega)
      simp [h0]
  unfold processMesh
  rw [h1, Option.some_bind]
  cases hopt : mesh.mNormals with
  | none =>
    simp [aiMesh.HasNormals, hopt, faceLoop_eq mesh hf hfw]
  | some ns =>
    have hlen : ns.length = mesh.mNumVertices := hn ns (by simp [hopt])
    by_cases hpos : mesh.mNumVertices > 0
    · simp [aiMesh.HasNormals, hopt, hpos, normalLoop_eq mesh ns hopt hlen,
        faceLoop_eq mesh hf hfw]
    · have h0 : ns = [] := List.length_eq_zero.mp (by omega)
      simp [aiMesh.HasNormals, hopt, hpos, h0, faceLoop_eq mesh hf hfw]

theorem length_flatMap_coords {R : Type} (vs : List (aiVector3D R)) :
    (vs.flatMap coords).length = 3 * vs.length := by
  induction vs with
  | nil => rfl
  | cons v vs ih => simp [List.flatMap_cons, coords, ih]; omega

theorem length_flatMap_faceIndices (fs : List aiFace)
    (h : ∀ face ∈ fs, face.WellFormed ∧ face.mNumIndices = 3) :
    (fs.flatMap faceIndices).length = 3 * fs.length := by
  induction fs with
  | nil => rfl
  | cons f fs ih =>
    obtain ⟨hw, h3⟩ := h f (List.mem_cons_self f fs)
    have hl : f.mIndices.length = 3 := by rw [← h3]; exact hw
    have ih2 := ih (fun g hg => h g (List.mem_cons_of_mem f hg))
    simp [List.flatMap_cons, faceIndices, h3, hl, ih2]; omega

theorem mem_flatMap_faceIndices {fs : List aiFace} {i : Nat}
    (h : i ∈ fs.flatMap faceIndices) : ∃ face ∈ fs, i ∈ face.mIndices := by
  obtain ⟨f, hf, hi⟩ := List.mem_flatMap.mp h
  refine ⟨f, hf, ?_⟩
  unfold faceIndices at hi
  split at hi
  · simp at hi
  · exact List.mem_of_mem_take hi

end ObjectModelRenerable

/-- C6: for a well-formed mesh with `N = mNumVertices` vertices and `M = mNumFaces` faces,
all of them triangles with indices below `N`, `processMesh` run on the empty object returns
an object whose `m_vertices` has length `3 * N`, whose `m_normals` has length `3 * N` when
the mesh has normals and `0` otherwise, whose `m_indices` has length `3 * M`, and every
element of `m_indices` is below `N`. -/
theorem C6_processMesh_lengths {R : Type} (mesh : aiMesh R) (hwf : mesh.WellFormed)
    (htri : mesh.AllTriangles) :
    ∃ obj : ObjectModelRenerable R,
      ObjectModelRenerable.processMesh mesh ObjectModelRenerable.empty = some obj ∧
      obj.m_vertices.length = 3 * mesh.mNumVertices ∧
      obj.m_normals.length = (if mesh.HasNormals then 3 * mesh.mNumVertices else 0) ∧
      obj.m_indices.length = 3 * mesh.mNumFaces ∧
      ∀ i ∈ obj.m_indices, i < mesh.mNumVertices := by
  refine ⟨_, ObjectModelRenerable.processMesh_eq mesh hwf ObjectModelRenerable.empty, ?_, ?_, ?_, ?_⟩
  · simp [-List.length_flatMap, ObjectModelRenerable.empty,
      ObjectModelRenerable.length_flatMap_coords, hwf.1]
  · obtain ⟨-, hn, -, -⟩ := hwf
    cases hopt : mesh.mNormals with
    | none => simp [ObjectModelRenerable.empty, aiMesh.HasNormals, hopt]
    | some ns =>
      have hlen : ns.length = mesh.mNumVertices := hn ns (by simp [hopt])
      by_cases hpos : mesh.mNumVertices > 0
      · simp [-List.length_flatMap, ObjectModelRenerable.empty, aiMesh.HasNormals, hopt, hpos,
          ObjectModelRenerable.length_flatMap_coords, hlen]
      · have h0 : ns = [] := List.length_eq_zero.mp (by omega)
        simp [ObjectModelRenerable.empty, aiMesh.HasNormals, hopt, hpos, h0]
  · have h := ObjectModelRenerable.length_flatMap_faceIndices mesh.mFaces
      (fun f hf => ⟨hwf.2.2.2 f hf, (htri f hf).1⟩)
    simp [-List.length_flatMap, ObjectModelRenerable.empty, h, hwf.2.2.1]
  · intro i hi
    have hi2 : i ∈ mesh.mFaces.flatMap ObjectModelRenerable.faceIndices := by
      simpa [ObjectModelRenerable.empty] using hi
    obtain ⟨f, hf, hif⟩ := ObjectModelRenerable.mem_flatMap_faceIndices hi2
    exact (htri f hf).2 i hif

/-- C6, on the fixture `triangleMesh` (`N = 3`, `M = 1`): the run returns nine vertex
coordinates, nine normal coordinates and the three indices `0, 1, 2`. -/
theorem C6_processMesh_lengths_witness :
    triangleMesh.WellFormed ∧ triangleMesh.AllTriangles ∧
    ObjectModelRenerable.processMesh triangleMesh ObjectModelRenerable.empty =
      some ⟨[0, 0, 0, 1, 0, 0, 0, 1, 0], [0, 0, 1, 0, 0, 1, 0, 0, 1], [0, 1, 2]⟩ ∧
    ∃ obj : ObjectModelRenerable Int,
      ObjectModelRenerable.processMesh triangleMesh ObjectModelRenerable.empty = some obj ∧
      obj.m_vertices.length = 3 * triangleMesh.mNumVertices ∧
      obj.m_normals.length = (if triangleMesh.HasNormals then 3 * triangleMesh.mNumVertices else 0) ∧
      obj.m_indices.length = 3 * triangleMesh.mNumFaces ∧
      ∀ i ∈ obj.m_indices, i < triangleMesh.mNumVertices :=
  ⟨by decide, by decide, by decide, C6_processMesh_lengths triangleMesh (by decide) (by decide)⟩

/-- C7 (as stated, refuted): the claim says that construction reports `ImportError` when
the import backend returns no scene or a scene with zero meshes.  The constructor has no
test on either: with `ReadFile` returning the null pointer, and with `ReadFile` returning a
scene whose mesh array is empty, it dereferences `scene->mMeshes[0]` all the same, which is
undefined behaviour and not a reported error. -/
theorem C7_counterexample :
    (ObjectModelRenerable.construct (fun _ => (none : Option (aiScene Int))) "missing.obj" =
        Outcome.undefinedBehaviour ∧
      ObjectModelRenerable.construct (fun _ => (none : Option (aiScene Int))) "missing.obj" ≠
        Outcome.importError) ∧
    (ObjectModelRenerable.construct (fun _ => some (⟨0, []⟩ : aiScene Int)) "empty.obj" =
        Outcome.undefinedBehaviour ∧
      ObjectModelRenerable.construct (fun _ => some (⟨0, []⟩ : aiScene Int)) "empty.obj" ≠
        Outcome.importError) := by
  decide

/-- C7 (amended): the constructor never reports an `ImportError`.  It constructs the object
whenever the import backend returns a scene whose mesh array starts with a well-formed
mesh: the object then holds what `processMesh` extracts from that first mesh alone, the
other meshes being ignored.  When the backend returns no scene, or a scene with zero
meshes, the constructor has no defined result and no object is produced. -/
theorem C7_construct {R : Type} (ReadFile : String → Option (aiScene R)) (objectModel : String) :
    ObjectModelRenerable.construct ReadFile objectModel ≠ Outcome.importError ∧
    (ReadFile objectModel = none →
      ObjectModelRenerable.construct ReadFile objectModel = Outcome.undefinedBehaviour) ∧
    (∀ scene, ReadFile objectModel = some scene → scene.WellFormed → scene.mNumMeshes = 0 →
      ObjectModelRenerable.construct ReadFile objectModel = Outcome.undefinedBehaviour) ∧
    (∀ scene mesh rest, ReadFile objectModel = some scene → scene.mMeshes = mesh :: rest →
      mesh.WellFormed →
      ObjectModelRenerable.construct ReadFile objectModel = Outcome.constructed
        { m_vertices := mesh.mVertices.flatMap ObjectModelRenerable.coords,
          m_normals := (mesh.mNormals.getD []).flatMap ObjectModelRenerable.coords,
          m_indices := mesh.mFaces.flatMap ObjectModelRenerable.faceIndices }) := by
  refine ⟨?_, ?_, ?_, ?_⟩
  · unfold ObjectModelRenerable.construct
    split
    · simp
    · split
      · simp
      · split <;> simp
  · intro h
    simp [ObjectModelRenerable.construct, h]
  · intro scene h hwf h0
    have hnil : scene.mMeshes = [] := List.length_eq_zero.mp (hwf.trans h0)
    simp [ObjectModelRenerable.construct, h, hnil]
  · intro scene mesh rest h hm hwf
    simp [ObjectModelRenerable.construct, h, hm,
      ObjectModelRenerable.processMesh_eq mesh hwf, ObjectModelRenerable.empty]

/-- C7 (amended), on two backends: one that returns no scene, and one that returns a scene
holding the fixture `triangleMesh`. -/
theorem C7_construct_witness :
    ((fun _ => none : String → Option (aiScene Int)) "missing.obj" = none ∧
      ObjectModelRenerable.construct (fun _ => (none : Option (aiScene Int))) "missing.obj" =
        Outcome.undefinedBehaviour) ∧
    (triangleMesh.WellFormed ∧
      ObjectModelRenerable.construct (fun _ => some (⟨1, [triangleMesh]⟩ : aiScene Int))
        "triangle.obj" =
        Outcome.constructed
          ⟨[0, 0, 0, 1, 0, 0, 0, 1, 0], [0, 0, 1, 0, 0, 1, 0, 0, 1], [0, 1, 2]⟩) :=
  ⟨⟨rfl, (C7_construct (fun _ => (none : Option (aiScene Int))) "missing.obj").2.1 rfl⟩,
    ⟨by decide,
      (C7_construct (fun _ => some (⟨1, [triangleMesh]⟩ : aiScene Int)) "triangle.obj").2.2.2
        ⟨1, [triangleMesh]⟩ triangleMesh [] rfl rfl (by decide)⟩⟩

/-! ## Mesh import: the contents of the three vectors -/

namespace ObjectModelRenerable

/-- Over well-formed faces, what the face loop appends is the concatenation of the index
arrays of the faces whose count is `3`. -/
theorem flatMap_faceIndices_eq_filter (fs : List aiFace) (h : ∀ face ∈ fs, face.WellFormed) :
    fs.flatMap faceIndices =
      (fs.filter (fun face => face.mNumIndices == 3)).flatMap (fun face => face.mIndices) := by
  induction fs with
  | nil => rfl
  | cons f fs ih =>
    have ih2 := ih (fun g hg => h g (List.mem_cons_of_mem f hg))
    have hw : f.mIndices.length = f.mNumIndices := h f (List.mem_cons_self f fs)
    by_cases h3 : f.mNumIndices = 3
    · have htake : f.mIndices.take 3 = f.mIndices := List.take_of_length_le (by omega)
      simp [List.flatMap_cons, List.filter_cons, faceIndices, h3, htake, ih2]
    · simp [List.flatMap_cons, List.filter_cons, faceIndices, h3, ih2]

/-- Over well-formed faces, the number of indices the face loop appends is a multiple of
three. -/
theorem three_dvd_length_flatMap_faceIndices (fs : List aiFace)
    (h : ∀ face ∈ fs, face.WellFormed) : 3 ∣ (fs.flatMap faceIndices).length := by
  induction fs with
  | nil => exact ⟨0, rfl⟩
  | cons f fs ih =>
    obtain ⟨k, hk⟩ := ih (fun g hg => h g (List.mem_cons_of_mem f hg))
    have hw : f.mIndices.length = f.mNumIndices := h f (List.mem_cons_self f fs)
    rw [List.flatMap_cons, List.length_append, hk]
    by_cases h3 : f.mNumIndices = 3
    · have hl : (faceIndices f).length = 3 := by
        simp [faceIndices, h3]; omega
      rw [hl]; exact ⟨k + 1, by omega⟩
    · have hl : (faceIndices f).length = 0 := by simp [faceIndices, h3]
      rw [hl]; exact ⟨k, by omega⟩

end ObjectModelRenerable

/-- C11: for every well-formed mesh, `processMesh` run on the empty object returns an object
whose `m_vertices` is the in-order concatenation of `(x, y, z)` over the vertices of the
mesh, whose `m_normals` is the in-order concatenation of `(x, y, z)` over the normals when
the array is present and is empty when it is absent, and whose `m_indices` is the in-order
concatenation of the index arrays, copied as they are, of exactly the faces with three
indices; every such face gives three indices and every other face none, so the length of
`m_indices` is a multiple of three. -/
theorem C11_processMesh_contents {R : Type} (mesh : aiMesh R) (hwf : mesh.WellFormed) :
    ∃ obj : ObjectModelRenerable R,
      ObjectModelRenerable.processMesh mesh ObjectModelRenerable.empty = some obj ∧
      obj.m_vertices = mesh.mVertices.flatMap (fun vec => [vec.x, vec.y, vec.z]) ∧
      (∀ ns, mesh.mNormals = some ns →
        obj.m_normals = ns.flatMap (fun vec => [vec.x, vec.y, vec.z])) ∧
      (mesh.mNormals = none → obj.m_normals = []) ∧
      obj.m_indices =
        (mesh.mFaces.filter (fun face => face.mNumIndices == 3)).flatMap
          (fun face => face.mIndices) ∧
      (∀ face ∈ mesh.mFaces, face.mNumIndices = 3 → face.mIndices.length = 3) ∧
      3 ∣ obj.m_indices.length := by
  refine ⟨_, ObjectModelRenerable.processMesh_eq mesh hwf ObjectModelRenerable.empty,
    ?_, ?_, ?_, ?_, ?_, ?_⟩
  · exact List.nil_append _
  · intro ns hns
    show [] ++ (mesh.mNormals.getD []).flatMap ObjectModelRenerable.coords = _
    rw [hns, List.nil_append]; rfl
  · intro hnone
    show [] ++ (mesh.mNormals.getD []).flatMap ObjectModelRenerable.coords = _
    rw [hnone]; rfl
  · show [] ++ mesh.mFaces.flatMap ObjectModelRenerable.faceIndices = _
    rw [List.nil_append,
      ObjectModelRenerable.flatMap_faceIndices_eq_filter mesh.mFaces hwf.2.2.2]
  · intro face hface h3
    have hw : face.mIndices.length = face.mNumIndices := hwf.2.2.2 face hface
    omega
  · show 3 ∣ ([] ++ mesh.mFaces.flatMap ObjectModelRenerable.faceIndices).length
    rw [List.nil_append]
    exact ObjectModelRenerable.three_dvd_length_flatMap_faceIndices mesh.mFaces hwf.2.2.2

/-- C11, on the fixture `mixedMesh`: the twelve vertex coordinates in order, no normals, and
the indices of the first and the fourth face only, the line and the quadrilateral between
them being skipped. -/
theorem C11_processMesh_contents_witness :
    mixedMesh.WellFormed ∧
    ObjectModelRenerable.processMesh mixedMesh ObjectModelRenerable.empty =
      some ⟨[0, 0, 0, 1, 0, 0, 1, 1, 0, 0, 1, 5], [], [0, 1, 2, 2, 3, 0]⟩ ∧
    ∃ obj : ObjectModelRenerable Int,
      ObjectModelRenerable.processMesh mixedMesh ObjectModelRenerable.empty = some obj ∧
      obj.m_vertices = mixedMesh.mVertices.flatMap (fun vec => [vec.x, vec.y, vec.z]) ∧
      (∀ ns, mixedMesh.mNormals = some ns →
        obj.m_normals = ns.flatMap (fun vec => [vec.x, vec.y, vec.z])) ∧
      (mixedMesh.mNormals = none → obj.m_normals = []) ∧
      obj.m_indices =
        (mixedMesh.mFaces.filter (fun face => face.mNumIndices == 3)).flatMap
          (fun face => face.mIndices) ∧
      (∀ face ∈ mixedMesh.mFaces, face.mNumIndices = 3 → face.mIndices.length = 3) ∧
      3 ∣ obj.m_indices.length :=
  ⟨by decide, by decide, C11_processMesh_contents mixedMesh (by decide)⟩

end QOpenGLWidgetBackground
